import Mathlib

/-!
Shallow embedding of the rpn calculator core (TLINDEN/rpnc): the `Stack`
type with its backup/undo machinery, the function registries
(`DefineFunctions` / `DefineBatchFunctions`), and the evaluation loop
(`Calc.Eval` / `Calc.EvalItem` / `Calc.DoFuncall`).

Modelling conventions, used throughout:

* Go `float64` values are modelled as `ℚ`.  Every verified property is about
  stack discipline, dispatch, and error/panic control flow, none of which
  depends on floating-point rounding.  Go math-library functions whose
  numeric output no property depends on (sqrt, sin, pow, constants such as
  Pi, ...) appear in the registries with their real names and arities but
  with an opaque value model (`goFloat1` / `goFloat2` / `const2num`).
* A Go runtime panic (out-of-range slice or nil-pointer dereference) is
  modelled explicitly: `Option` for per-function results, `FRes.panicked`
  for an evaluation that crashes the process.
* Printing-only state (`debug`, `showstack`, `intermediate`, `precision`,
  `notdone`, `stdin`, the history log, the readline completer) is omitted;
  error strings that the Go code prints with `fmt.Println` and that the
  specified behaviour depends on are collected in an `output` list.
-/

/-- Model of the Go `Stack` (`container/list` of `float64`): `linklist` is the
live list in front-to-back order (front = bottom, back = top of the stack),
`backup` the snapshot list, `rev`/`backuprev` the two revision counters.
The `debug` flag and the mutex affect only printing and locking and are
omitted. -/
structure Stack where
  linklist : List ℚ
  backup : List ℚ
  rev : Nat
  backuprev : Nat
deriving DecidableEq, Repr

/-- Go `NewStack`: empty lists, both revisions 0. -/
def NewStack : Stack :=
  { linklist := [], backup := [], rev := 0, backuprev := 0 }

/-- Go `Stack.Bump`: increment the revision counter. -/
def Stack.Bump (s : Stack) : Stack :=
  { s with rev := s.rev + 1 }

/-- Go `Stack.Push`: bump the revision, then `PushBack` the item. -/
def Stack.Push (s : Stack) (item : ℚ) : Stack :=
  { s.Bump with linklist := s.linklist ++ [item] }

/-- Go `Stack.Pop`: on an empty list return 0 and change nothing; otherwise
remove the back element, bump the revision, and return the element. -/
def Stack.Pop (s : Stack) : ℚ × Stack :=
  match s.linklist.getLast? with
  | none => (0, s)
  | some val => (val, { s.Bump with linklist := s.linklist.dropLast })

/-- The loop body of Go `Stack.Shift`: remove the back element `count` times.
When the list runs out mid-loop, `Back()` is nil and the Go code dereferences
it (`tail.Value`) — a runtime panic, modelled as `none`. -/
def shiftLoop : Nat → List ℚ → Option (List ℚ)
  | 0, l => some l
  | count + 1, l =>
    match l.getLast? with
    | none => none
    | some _ => shiftLoop count l.dropLast

/-- Go `Stack.Shift(num ...int)`: an early return leaves an empty stack
untouched; otherwise the removal loop runs `count` times and can panic
(`none`).  The revision counter is not bumped. -/
def Stack.Shift (s : Stack) (count : Nat) : Option Stack :=
  if s.linklist.isEmpty then some s
  else (shiftLoop count s.linklist).map fun l => { s with linklist := l }

/-- Go `Stack.Shift()` with the default count 1, as called by the `shift`
command and never panicking (`Shift_one` below): empty list untouched,
otherwise drop the back element. -/
def Stack.Shift1 (s : Stack) : Stack :=
  if s.linklist.isEmpty then s else { s with linklist := s.linklist.dropLast }

/-- Go `Stack.Swap`: no-op below depth 2; otherwise remove the two back
elements `prevA` (top) and `prevB` and push them back as `prevA, prevB`.
No revision bump. -/
def Stack.Swap (s : Stack) : Stack :=
  if s.linklist.length < 2 then s
  else
    match s.linklist.getLast?, s.linklist.dropLast.getLast? with
    | some prevA, some prevB =>
      { s with linklist := s.linklist.dropLast.dropLast ++ [prevA, prevB] }
    | _, _ => s

/-- Go `Stack.Last(num ...int)`: walk front-to-back and keep an element iff at
most `count` elements (itself included) follow it — i.e. drop all but the
last `count`, returned bottom-to-top, without mutation. -/
def Stack.Last (s : Stack) (count : Nat) : List ℚ :=
  s.linklist.drop (s.linklist.length - count)

/-- Go `Stack.All`: every element, bottom-to-top, without mutation. -/
def Stack.All (s : Stack) : List ℚ :=
  s.linklist

/-- Go `Stack.Clear`: replace the live list by a fresh empty list.  No
revision bump. -/
def Stack.Clear (s : Stack) : Stack :=
  { s with linklist := [] }

/-- Go `Stack.Len`. -/
def Stack.Len (s : Stack) : Nat :=
  s.linklist.length

/-- Go `Stack.Backup`: copy the live list into the snapshot and record the
current revision as `backuprev`. -/
def Stack.Backup (s : Stack) : Stack :=
  { s with backup := s.linklist, backuprev := s.rev }

/-- Go `Stack.Restore`: when `rev == 0` print "error: stack is empty." and
change nothing (the returned Bool records that the error was printed);
otherwise set the revision to `backuprev` and copy the snapshot into the
live list. -/
def Stack.Restore (s : Stack) : Stack × Bool :=
  if s.rev = 0 then (s, true)
  else ({ s with rev := s.backuprev, linklist := s.backup }, false)

/-- Go `Stack.Reverse`.  The Go loop walks a cursor front-to-back while
removing the back element each iteration, so it stops after ⌈n/2⌉ removals
(when the cursor is removed or reaches the new back); the removed elements
are then pushed to the front in removal order.  The resulting list is the
last ⌈n/2⌉ elements reversed, followed by the untouched first ⌊n/2⌋
elements — only for n ≤ 3 is this the full reversal.  No revision bump. -/
def Stack.Reverse (s : Stack) : Stack :=
  let n := s.linklist.length
  let m := (n + 1) / 2
  { s with linklist := (s.linklist.drop (n - m)).reverse ++ s.linklist.take (n - m) }

/-! ## Function registry (src/funcs.go) -/

/-- Go `Numbers` (`[]float64`). -/
abbrev Numbers := List ℚ

/-- Go `R`: a function result, a value plus an optional error (the error is
modelled by its message string). -/
structure R where
  Res : ℚ
  Err : Option String
deriving DecidableEq, Repr

/-- Go `Function` (`func(Numbers) R`).  A Go function body can additionally
panic on an out-of-range slice index; that outcome is modelled as `none`. -/
abbrev Function := Numbers → Option R

/-- Go `Funcall`: expected argument count (−1 means batch: the whole stack is
passed) and the transformation itself. -/
structure Funcall where
  Expectargs : Int
  Func : Function

/-- Go `NewFuncall`.  In Go `expectargs` is variadic with default 2; the
model always passes it explicitly. -/
def NewFuncall (function : Function) (expectargs : Int) : Funcall :=
  { Expectargs := expectargs, Func := function }

/-- Go `NewR`. -/
def NewR (n : ℚ) (e : Option String) : R :=
  { Res := n, Err := e }

/-- A Go body using `arg[0]` only: panics (`none`) iff the slice is empty. -/
def arg1 (f : ℚ → R) : Function :=
  fun arg => (arg.get? 0).map f

/-- A Go body using `arg[0]` and `arg[1]`: panics (`none`) iff the slice has
fewer than two elements. -/
def arg2 (f : ℚ → ℚ → R) : Function :=
  fun arg => (arg.get? 0).bind fun a => (arg.get? 1).map fun b => f a b

/-- Value model of a unary Go math-library call (`math.Sqrt`, `math.Sin`,
...).  No verified property depends on the numeric output of these
functions, only on the entry's presence in the registry, its arity, and the
error shape `NewR(·, nil)`; the value itself is modelled as 0. -/
def goFloat1 : ℚ → ℚ := fun _ => 0

/-- Value model of a binary Go math-library or bit-twiddling call
(`math.Pow`, `math.Remainder`, `int|int`, ...); see `goFloat1`. -/
def goFloat2 : ℚ → ℚ → ℚ := fun _ _ => 0

/-- Go `DefineFunctions`: the normal (fixed-arity) registry, modelled as a
total lookup function on names.  Aliases (`*` for `x`, `remainder` for
`mod`) are folded into the match.  The two shift entries keep their
negative/overflow guard (`arg[1] < 0 || uint64(arg[1]) > math.MaxInt64`,
modelled as `b < 0 ∨ 2^63 ≤ b`); the division entry keeps its
divide-by-zero guard.  Purely rational bodies (`+ - x / % %- %+` and the
unit converters) are modelled exactly. -/
def DefineFunctions : String → Option Funcall
  | "+" => some (NewFuncall (arg2 fun a b => NewR (a + b) none) 2)
  | "-" => some (NewFuncall (arg2 fun a b => NewR (a - b) none) 2)
  | "x" | "*" => some (NewFuncall (arg2 fun a b => NewR (a * b) none) 2)
  | "/" => some (NewFuncall (arg2 fun a b =>
      if b = 0 then NewR 0 (some "division by null") else NewR (a / b) none) 2)
  | "^" => some (NewFuncall (arg2 fun a b => NewR (goFloat2 a b) none) 2)
  | "%" => some (NewFuncall (arg2 fun a b => NewR ((a / 100) * b) none) 2)
  | "%-" => some (NewFuncall (arg2 fun a b => NewR (a - ((a / 100) * b)) none) 2)
  | "%+" => some (NewFuncall (arg2 fun a b => NewR (a + ((a / 100) * b)) none) 2)
  | "mod" | "remainder" => some (NewFuncall (arg2 fun a b => NewR (goFloat2 a b) none) 2)
  | "sqrt" => some (NewFuncall (arg1 fun a => NewR (goFloat1 a) none) 1)
  | "abs" => some (NewFuncall (arg1 fun a => NewR (goFloat1 a) none) 1)
  | "acos" => some (NewFuncall (arg1 fun a => NewR (goFloat1 a) none) 1)
  | "acosh" => some (NewFuncall (arg1 fun a => NewR (goFloat1 a) none) 1)
  | "asin" => some (NewFuncall (arg1 fun a => NewR (goFloat1 a) none) 1)
  | "asinh" => some (NewFuncall (arg1 fun a => NewR (goFloat1 a) none) 1)
  | "atan" => some (NewFuncall (arg1 fun a => NewR (goFloat1 a) none) 1)
  | "atan2" => some (NewFuncall (arg2 fun a b => NewR (goFloat2 a b) none) 2)
  | "atanh" => some (NewFuncall (arg1 fun a => NewR (goFloat1 a) none) 1)
  | "cbrt" => some (NewFuncall (arg1 fun a => NewR (goFloat1 a) none) 1)
  | "ceil" => some (NewFuncall (arg1 fun a => NewR (goFloat1 a) none) 1)
  | "cos" => some (NewFuncall (arg1 fun a => NewR (goFloat1 a) none) 1)
  | "cosh" => some (NewFuncall (arg1 fun a => NewR (goFloat1 a) none) 1)
  | "erf" => some (NewFuncall (arg1 fun a => NewR (goFloat1 a) none) 1)
  | "erfc" => some (NewFuncall (arg1 fun a => NewR (goFloat1 a) none) 1)
  | "erfcinv" => some (NewFuncall (arg1 fun a => NewR (goFloat1 a) none) 1)
  | "erfinv" => some (NewFuncall (arg1 fun a => NewR (goFloat1 a) none) 1)
  | "exp" => some (NewFuncall (arg1 fun a => NewR (goFloat1 a) none) 1)
  | "exp2" => some (NewFuncall (arg1 fun a => NewR (goFloat1 a) none) 1)
  | "expm1" => some (NewFuncall (arg1 fun a => NewR (goFloat1 a) none) 1)
  | "floor" => some (NewFuncall (arg1 fun a => NewR (goFloat1 a) none) 1)
  | "gamma" => some (NewFuncall (arg1 fun a => NewR (goFloat1 a) none) 1)
  | "ilogb" => some (NewFuncall (arg1 fun a => NewR (goFloat1 a) none) 1)
  | "j0" => some (NewFuncall (arg1 fun a => NewR (goFloat1 a) none) 1)
  | "j1" => some (NewFuncall (arg1 fun a => NewR (goFloat1 a) none) 1)
  | "log" => some (NewFuncall (arg1 fun a => NewR (goFloat1 a) none) 1)
  | "log10" => some (NewFuncall (arg1 fun a => NewR (goFloat1 a) none) 1)
  | "log1p" => some (NewFuncall (arg1 fun a => NewR (goFloat1 a) none) 1)
  | "log2" => some (NewFuncall (arg1 fun a => NewR (goFloat1 a) none) 1)
  | "logb" => some (NewFuncall (arg1 fun a => NewR (goFloat1 a) none) 1)
  | "pow" => some (NewFuncall (arg2 fun a b => NewR (goFloat2 a b) none) 2)
  | "round" => some (NewFuncall (arg1 fun a => NewR (goFloat1 a) none) 1)
  | "roundtoeven" => some (NewFuncall (arg1 fun a => NewR (goFloat1 a) none) 1)
  | "sin" => some (NewFuncall (arg1 fun a => NewR (goFloat1 a) none) 1)
  | "sinh" => some (NewFuncall (arg1 fun a => NewR (goFloat1 a) none) 1)
  | "tan" => some (NewFuncall (arg1 fun a => NewR (goFloat1 a) none) 1)
  | "tanh" => some (NewFuncall (arg1 fun a => NewR (goFloat1 a) none) 1)
  | "trunc" => some (NewFuncall (arg1 fun a => NewR (goFloat1 a) none) 1)
  | "y0" => some (NewFuncall (arg1 fun a => NewR (goFloat1 a) none) 1)
  | "y1" => some (NewFuncall (arg1 fun a => NewR (goFloat1 a) none) 1)
  | "copysign" => some (NewFuncall (arg2 fun a b => NewR (goFloat2 a b) none) 2)
  | "dim" => some (NewFuncall (arg2 fun a b => NewR (goFloat2 a b) none) 2)
  | "hypot" => some (NewFuncall (arg2 fun a b => NewR (goFloat2 a b) none) 2)
  | "cm-to-inch" => some (NewFuncall (arg1 fun a => NewR (a / (254/100)) none) 1)
  | "inch-to-cm" => some (NewFuncall (arg1 fun a => NewR (a * (254/100)) none) 1)
  | "gallons-to-liters" => some (NewFuncall (arg1 fun a => NewR (a * (3785/1000)) none) 1)
  | "liters-to-gallons" => some (NewFuncall (arg1 fun a => NewR (a / (3785/1000)) none) 1)
  | "yards-to-meters" => some (NewFuncall (arg1 fun a => NewR (a * (9144/100)) none) 1)
  | "meters-to-yards" => some (NewFuncall (arg1 fun a => NewR (a / (9144/100)) none) 1)
  | "miles-to-kilometers" => some (NewFuncall (arg1 fun a => NewR (a * (1609/1000)) none) 1)
  | "kilometers-to-miles" => some (NewFuncall (arg1 fun a => NewR (a / (1609/1000)) none) 1)
  | "or" => some (NewFuncall (arg2 fun a b => NewR (goFloat2 a b) none) 2)
  | "and" => some (NewFuncall (arg2 fun a b => NewR (goFloat2 a b) none) 2)
  | "xor" => some (NewFuncall (arg2 fun a b => NewR (goFloat2 a b) none) 2)
  | "<" => some (NewFuncall (arg2 fun a b =>
      if b < 0 ∨ (9223372036854775808 : ℚ) ≤ b then NewR 0 (some "negative shift amount")
      else NewR (goFloat2 a b) none) 2)
  | ">" => some (NewFuncall (arg2 fun a b =>
      if b < 0 ∨ (9223372036854775808 : ℚ) ≤ b then NewR 0 (some "negative shift amount")
      else NewR (goFloat2 a b) none) 2)
  | _ => none

/-- Go `DefineBatchFunctions`: the batch registry, every entry with
`Expectargs = -1`.  `median` indexes `args[len/2]` without sorting and
panics (`none`) on an empty slice; `min`/`max` start the fold from
`args[0]` and likewise panic on an empty slice; `mean` on an empty slice
divides 0 by 0 (NaN in Go, 0 in ℚ — no verified property touches it).
Aliases `+` → `sum` and `avg` → `mean` are folded into the match. -/
def DefineBatchFunctions : String → Option Funcall
  | "median" => some (NewFuncall (fun args =>
      (args.get? (args.length / 2)).map fun v => NewR v none) (-1))
  | "mean" | "avg" => some (NewFuncall (fun args =>
      some (NewR ((args.foldl (· + ·) 0) / (args.length : ℚ)) none)) (-1))
  | "min" => some (NewFuncall (fun args =>
      match args with
      | [] => none
      | h :: t => some (NewR (t.foldl (fun m item => if item < m then item else m) h) none)) (-1))
  | "max" => some (NewFuncall (fun args =>
      match args with
      | [] => none
      | h :: t => some (NewR (t.foldl (fun m item => if m < item then item else m) h) none)) (-1))
  | "sum" | "+" => some (NewFuncall (fun args =>
      some (NewR (args.foldl (· + ·) 0) none)) (-1))
  | _ => none

/-! ## Token parsing helpers (src/calc.go EvalItem literal branches) -/

/-- Numeric value of a list of decimal digit characters. -/
def natOfDigits (l : List Char) : Nat :=
  l.foldl (fun acc c => acc * 10 + (c.toNat - Char.toNat '0')) 0

/-- Value of a fractional digit string: `natOfDigits l / 10 ^ len l`. -/
def fracOfDigits (l : List Char) : ℚ :=
  (natOfDigits l : ℚ) / ((10 : ℚ) ^ l.length)

/-- Exponent part of a float literal: optional sign, then one or more
digits, nothing after. -/
def parseExp : List Char → Option Int
  | '+' :: rest =>
    if rest ≠ [] ∧ rest.all Char.isDigit then some (natOfDigits rest : Int) else none
  | '-' :: rest =>
    if rest ≠ [] ∧ rest.all Char.isDigit then some (-(natOfDigits rest : Int)) else none
  | rest =>
    if rest ≠ [] ∧ rest.all Char.isDigit then some (natOfDigits rest : Int) else none

/-- Scale a mantissa by a decimal exponent. -/
def applyExp (m : ℚ) (e : Int) : ℚ :=
  if 0 ≤ e then m * (10 : ℚ) ^ e.toNat else m / (10 : ℚ) ^ (-e).toNat

/-- Unsigned part of a decimal float literal: digits, optional `.` and more
digits (at least one digit overall), optional `e`/`E` exponent. -/
def parseFloatCore (l : List Char) : Option ℚ :=
  let ip := l.takeWhile Char.isDigit
  let rest := l.dropWhile Char.isDigit
  match rest with
  | [] => if ip = [] then none else some (natOfDigits ip : ℚ)
  | '.' :: rest2 =>
    let fp := rest2.takeWhile Char.isDigit
    let rest3 := rest2.dropWhile Char.isDigit
    if ip = [] ∧ fp = [] then none
    else
      let m : ℚ := (natOfDigits ip : ℚ) + fracOfDigits fp
      match rest3 with
      | [] => some m
      | 'e' :: erest => (parseExp erest).map (applyExp m)
      | 'E' :: erest => (parseExp erest).map (applyExp m)
      | _ => none
  | 'e' :: erest =>
    if ip = [] then none else (parseExp erest).map (applyExp (natOfDigits ip : ℚ))
  | 'E' :: erest =>
    if ip = [] then none else (parseExp erest).map (applyExp (natOfDigits ip : ℚ))
  | _ => none

/-- Model of Go `strconv.ParseFloat(item, 64)` on a whitespace-free token:
optional sign and a decimal mantissa/exponent.  (Go additionally accepts
"Inf"/"NaN", hex floats and digit-separating underscores; no verified
property involves such tokens, and ℚ has no representation for the first
two.) -/
def parseFloat (s : String) : Option ℚ :=
  match s.toList with
  | '+' :: rest => parseFloatCore rest
  | '-' :: rest => (parseFloatCore rest).map Neg.neg
  | l => parseFloatCore l

/-- Model of a `%d` conversion in Go `fmt.Sscanf`: optional sign, one or
more digits; returns the value and the unconsumed rest. -/
def parseInt : List Char → Option (Int × List Char)
  | '+' :: rest =>
    let ds := rest.takeWhile Char.isDigit
    if ds = [] then none else some ((natOfDigits ds : Int), rest.dropWhile Char.isDigit)
  | '-' :: rest =>
    let ds := rest.takeWhile Char.isDigit
    if ds = [] then none else some (-(natOfDigits ds : Int), rest.dropWhile Char.isDigit)
  | l =>
    let ds := l.takeWhile Char.isDigit
    if ds = [] then none else some ((natOfDigits ds : Int), l.dropWhile Char.isDigit)

/-- Model of the `fmt.Sscanf(item, "%d:%d", &hour, &min)` branch: both
integers must parse (trailing characters are ignored, as by `Sscanf`);
the pushed value is `hour + min/60`. -/
def parseTime (s : String) : Option ℚ :=
  (parseInt s.toList).bind fun hr =>
    match hr.2 with
    | ':' :: rest2 =>
      (parseInt rest2).map fun mn => (hr.1 : ℚ) + (mn.1 : ℚ) / 60
    | _ => none

/-- Hexadecimal digit test for the `0x%x` branch. -/
def isHexDigit (c : Char) : Bool :=
  c.isDigit || ('a' ≤ c && c ≤ 'f') || ('A' ≤ c && c ≤ 'F')

/-- Value of one hexadecimal digit character. -/
def hexVal (c : Char) : Nat :=
  if c.isDigit then c.toNat - Char.toNat '0'
  else if 'a' ≤ c then c.toNat - Char.toNat 'a' + 10
  else c.toNat - Char.toNat 'A' + 10

/-- Numeric value of a list of hexadecimal digit characters. -/
def natOfHexDigits (l : List Char) : Nat :=
  l.foldl (fun acc c => acc * 16 + hexVal c) 0

/-- Model of the `fmt.Sscanf(item, "0x%x", &i)` branch: a literal `0x`
followed by at least one hex digit (trailing characters ignored). -/
def parseHex (s : String) : Option ℚ :=
  match s.toList with
  | '0' :: 'x' :: rest =>
    let ds := rest.takeWhile isHexDigit
    if ds = [] then none else some ((natOfHexDigits ds : Nat) : ℚ)
  | _ => none

/-- Uppercase-letter test for the register regexp. -/
def isUpper (c : Char) : Bool := 'A' ≤ c && c ≤ 'Z'

/-- Character class `[A-Z0-9]` of the register regexp. -/
def isUpperDigit (c : Char) : Bool := isUpper c || c.isDigit

/-- Model of `calc.Register = regexp.MustCompile("^([<>])([A-Z][A-Z0-9]*)")`
applied with `FindStringSubmatch`: the token must start with `<` or `>`
followed by an uppercase letter; the captured name is the maximal
`[A-Z][A-Z0-9]*` run (the regexp is not anchored at the end). -/
def matchRegister (s : String) : Option (Char × String) :=
  match s.toList with
  | c :: d :: rest =>
    if (c = '<' || c = '>') && isUpper d then
      some (c, String.mk (d :: rest.takeWhile isUpperDigit))
    else none
  | _ => none

/-- Go `#.*` comment stripping (`calc.Comment.ReplaceAllString(line, "")`). -/
def stripComment (s : String) : String :=
  String.mk (s.toList.takeWhile (fun c => c ≠ '#'))

/-- Go `strings.TrimSpace`. -/
def trimSpace (s : String) : String :=
  String.mk (((s.toList.dropWhile Char.isWhitespace).reverse.dropWhile Char.isWhitespace).reverse)

/-- Accumulator loop for `splitWhitespace`. -/
def splitWhitespaceAux : List Char → List Char → List String
  | [], acc => if acc = [] then [] else [String.mk acc.reverse]
  | ch :: rest, acc =>
    if ch.isWhitespace then
      if acc = [] then splitWhitespaceAux rest []
      else String.mk acc.reverse :: splitWhitespaceAux rest []
    else splitWhitespaceAux rest (ch :: acc)

/-- Go `calc.Space.Split(line, -1)` on a trimmed line: split on runs of
whitespace. -/
def splitWhitespace (s : String) : List String :=
  splitWhitespaceAux s.toList []

/-! ## The Calc state and the command tables (src/calc.go, src/command.go) -/

/-- Model of the Go `Calc` struct, restricted to the fields consulted by the
evaluation logic: the batch-mode flag, the stack, and the `Vars` register
map (modelled as an association list, most recent binding first, looked up
with `List.lookup`).  `output` collects the error diagnostics the Go code
prints with `fmt.Println`.  The remaining fields (debug/showstack/
intermediate/precision/stdin flags, history log, completer, regexps,
interpreter) affect only printing, completion and REPL glue. -/
structure Calc where
  batch : Bool
  stack : Stack
  Vars : List (String × ℚ)
  output : List String
deriving DecidableEq, Repr

/-- Go `NewCalc` (batch off, empty stack, no variables). -/
def NewCalc : Calc :=
  { batch := false, stack := NewStack, Vars := [], output := [] }

/-- The `Constants` token list of src/calc.go. -/
def Constants : List String :=
  ["Pi", "Phi", "Sqrt2", "SqrtE", "SqrtPi", "SqrtPhi", "Ln2", "Log2E", "Ln10", "Log10E"]

/-- Value model of Go `const2num`: the pushed values are irrational float64
constants (math.Pi, ...) that no verified property depends on; the model
returns 0 for every name (which is also the Go default branch). -/
def const2num (_ : String) : ℚ := 0

/-- The registered Lua function names.  The extension bridge is an external
collaborator (spec §4.3); the model runs with no configuration file loaded,
so no Lua names are registered. -/
def LuaFunctions : List String := []

/-- Go `Error` (src/cmd/util.go): prefix a message with "Error: ". -/
def Error (m : String) : String := "Error: " ++ m

/-- Go `Calc.PutVar`: read (without popping) the top of the stack via
`Last()`; bind it if the stack is non-empty, otherwise print "empty
stack". -/
def Calc.PutVar (c : Calc) (name : String) : Calc :=
  match c.stack.Last 1 with
  | [v] => { c with Vars := (name, v) :: c.Vars }
  | _ => { c with output := c.output ++ ["empty stack"] }

/-- Go `Calc.GetVar`: push the bound value (with a backup first), or print
"variable doesn't exist". -/
def Calc.GetVar (c : Calc) (name : String) : Calc :=
  match c.Vars.lookup name with
  | some v => { c with stack := (c.stack.Backup).Push v }
  | none => { c with output := c.output ++ ["variable doesn't exist"] }

/-- Go `CommandSwap` (src/command.go). -/
def CommandSwap (c : Calc) : Calc :=
  if c.stack.Len < 2 then { c with output := c.output ++ ["stack too small, can't swap"] }
  else { c with stack := (c.stack.Backup).Swap }

/-- Go `CommandDup` (src/command.go). -/
def CommandDup (c : Calc) : Calc :=
  match c.stack.Last 1 with
  | [v] => { c with stack := (c.stack.Backup).Push v }
  | _ => { c with output := c.output ++ ["stack empty"] }

/-- The `undo` action: `c.stack.Restore()`, recording the printed error. -/
def CommandUndo (c : Calc) : Calc :=
  let r := c.stack.Restore
  { c with stack := r.1, output := if r.2 then c.output ++ ["error: stack is empty."] else c.output }

/-- Go `c.Commands` (general commands incl. the `quit` alias).  `exit`/`quit`
call `os.Exit(0)` and `manual` runs the pager — process- and terminal-level
effects outside the modelled state, hence identity here; no verified
property involves them. -/
def CommandsLookup : String → Option (Calc → Calc)
  | "exit" | "quit" => some fun c => c
  | "manual" => some fun c => c
  | _ => none

/-- Go `c.ShowCommands` (display-only commands and their aliases): they only
print and never mutate the stack. -/
def ShowCommandsLookup : String → Option (Calc → Calc)
  | "dump" | "p" => some fun c => c
  | "history" | "h" => some fun c => c
  | "vars" | "v" => some fun c => c
  | "hex" => some fun c => c
  | _ => none

/-- Go `c.StackCommands` (stack manipulators and their aliases).  `edit`
round-trips the stack through an external editor (excluded collaborator,
spec §6) and is modelled as identity; no verified property involves it. -/
def StackCommandsLookup : String → Option (Calc → Calc)
  | "clear" | "c" => some fun c => { c with stack := (c.stack.Backup).Clear }
  | "shift" => some fun c => { c with stack := (c.stack.Backup).Shift1 }
  | "reverse" => some fun c => { c with stack := (c.stack.Backup).Reverse }
  | "swap" => some CommandSwap
  | "undo" | "u" => some CommandUndo
  | "dup" => some CommandDup
  | "edit" => some fun c => c
  | _ => none

/-- Go `c.SettingsCommands` (toggles and their aliases).  Only the batch
flag is part of the modelled state; the debug/showstack toggles change
printing-only flags. -/
def SettingsCommandsLookup : String → Option (Calc → Calc)
  | "debug" | "d" => some fun c => c
  | "nodebug" => some fun c => c
  | "batch" | "b" => some fun c => { c with batch := !c.batch }
  | "nobatch" => some fun c => { c with batch := false }
  | "showstack" | "s" => some fun c => c
  | "noshowstack" => some fun c => c
  | _ => none

/-! ## The evaluation loop (src/calc.go) -/

/-- Result of evaluating a token, a line, or one function call: a new state,
a returned error (the Go `error` value, state carried alongside), or a
runtime panic that crashes the process. -/
inductive FRes where
  | ok (c : Calc)
  | err (c : Calc) (msg : String)
  | panicked
deriving DecidableEq, Repr

/-- Go `Calc.DoFuncall`: select the registry by mode; a missing entry is the
"function not defined but in completion list" error.  A batch entry
(`Expectargs = -1`) receives the whole stack with no depth check; a fixed-
arity entry is guarded by `stack.Len() < Expectargs`.  Only after the
transformation succeeds does the code back up the stack, drop the operands
(`Clear` for batch, `Shift` otherwise) and push the result; on a
transformation error the state is returned untouched.  The history entry
(`SetHistory`) is display-only and omitted. -/
def Calc.DoFuncall (c : Calc) (funcname : String) : FRes :=
  match if c.batch then DefineBatchFunctions funcname else DefineFunctions funcname with
  | none => .err c (Error "function not defined but in completion list")
  | some function =>
    if function.Expectargs = -1 then
      match function.Func c.stack.All with
      | none => .panicked
      | some funcresult =>
        match funcresult.Err with
        | some e => .err c e
        | none => .ok { c with stack := ((c.stack.Backup).Clear).Push funcresult.Res }
    else
      if (c.stack.Len : Int) < function.Expectargs then
        .err c "stack doesn't provide enough arguments"
      else
        match function.Func (c.stack.Last function.Expectargs.toNat) with
        | none => .panicked
        | some funcresult =>
          match funcresult.Err with
          | some e => .err c e
          | none =>
            match (c.stack.Backup).Shift function.Expectargs.toNat with
            | none => .panicked
            | some shifted => .ok { c with stack := shifted.Push funcresult.Res }

/-- Go `Calc.EvalItem`: classify one token in the source's order — decimal
float, `HH:MM` time, `0x` hex, named constant, normal-registry name,
batch-registry name (rejected outside batch mode), Lua name, register
`>NAME`/`<NAME`, the four command tables, `?`/`help`, and finally the
"unknown command or operator" error.  `Result()` only prints and is
omitted. -/
def Calc.EvalItem (c : Calc) (item : String) : FRes :=
  match parseFloat item with
  | some num => .ok { c with stack := (c.stack.Backup).Push num }
  | none =>
  match parseTime item with
  | some t => .ok { c with stack := (c.stack.Backup).Push t }
  | none =>
  match parseHex item with
  | some n => .ok { c with stack := (c.stack.Backup).Push n }
  | none =>
  if Constants.contains item then
    .ok { c with stack := (c.stack.Backup).Push (const2num item) }
  else if (DefineFunctions item).isSome then
    match c.DoFuncall item with
    | .ok c2 => .ok c2
    | .err c2 m => .err c2 (Error m)
    | .panicked => .panicked
  else if (DefineBatchFunctions item).isSome then
    if !c.batch then .err c (Error "only supported in batch mode")
    else
      match c.DoFuncall item with
      | .ok c2 => .ok c2
      | .err c2 m => .err c2 (Error m)
      | .panicked => .panicked
  else if LuaFunctions.contains item then
    .ok c
  else
  match matchRegister item with
  | some reg => if reg.1 = '>' then .ok (c.PutVar reg.2) else .ok (c.GetVar reg.2)
  | none =>
  match CommandsLookup item with
  | some act => .ok (act c)
  | none =>
  match ShowCommandsLookup item with
  | some act => .ok (act c)
  | none =>
  match StackCommandsLookup item with
  | some act => .ok (act c)
  | none =>
  match SettingsCommandsLookup item with
  | some act => .ok (act c)
  | none =>
  if item = "?" || item = "help" then .ok c
  else .err c (Error "unknown command or operator")

/-- The token loop of Go `Calc.Eval`: evaluate items in order and return the
first `EvalItem` error immediately (`if err := c.EvalItem(item); err != nil
{ return err }`), abandoning the remaining tokens. -/
def Calc.EvalTokens (c : Calc) : List String → FRes
  | [] => .ok c
  | item :: rest =>
    match c.EvalItem item with
    | .ok c2 => c2.EvalTokens rest
    | .err c2 m => .err c2 m
    | .panicked => .panicked

/-- Go `Calc.Eval`: strip comments, trim, no-op on an empty line, then run
the token loop.  The `notdone` flag and the showstack display only affect
printing and are omitted. -/
def Calc.Eval (c : Calc) (line : String) : FRes :=
  let stripped := trimSpace (stripComment line)
  if stripped = "" then .ok c
  else c.EvalTokens (splitWhitespace stripped)

/-! ## Support lemmas -/

theorem Swap_backup (s : Stack) : (s.Swap).backup = s.backup := by
  unfold Stack.Swap
  split
  · rfl
  · split <;> rfl

theorem Swap_rev (s : Stack) : (s.Swap).rev = s.rev := by
  unfold Stack.Swap
  split
  · rfl
  · split <;> rfl

theorem Reverse_backup (s : Stack) : (s.Reverse).backup = s.backup := rfl

theorem Reverse_rev (s : Stack) : (s.Reverse).rev = s.rev := rfl

theorem Shift1_backup (s : Stack) : (s.Shift1).backup = s.backup := by
  unfold Stack.Shift1
  split <;> rfl

theorem Shift1_rev (s : Stack) : (s.Shift1).rev = s.rev := by
  unfold Stack.Shift1
  split <;> rfl

theorem Swap_backuprev (s : Stack) : (s.Swap).backuprev = s.backuprev := by
  unfold Stack.Swap
  split
  · rfl
  · split <;> rfl

theorem Reverse_backuprev (s : Stack) : (s.Reverse).backuprev = s.backuprev := rfl

theorem Shift1_backuprev (s : Stack) : (s.Shift1).backuprev = s.backuprev := by
  unfold Stack.Shift1
  split <;> rfl

/-- `Shift` with the default count 1 never panics and agrees with `Shift1`. -/
theorem Shift_one (s : Stack) : s.Shift 1 = some s.Shift1 := by
  unfold Stack.Shift Stack.Shift1
  by_cases h : s.linklist.isEmpty
  · simp [h]
  · have hne : s.linklist ≠ [] := by simpa [List.isEmpty_iff] using h
    obtain ⟨v, hv⟩ := Option.isSome_iff_exists.mp (List.getLast?_isSome.mpr hne)
    simp [h, shiftLoop, hv]

/-- The shift loop succeeds within the available depth, dropping the last
`n` elements. -/
theorem shiftLoop_le (n : Nat) :
    ∀ l : List ℚ, n ≤ l.length → shiftLoop n l = some (l.take (l.length - n)) := by
  induction n with
  | zero => intro l _; simp [shiftLoop]
  | succ n ih =>
    intro l h
    have hne : l ≠ [] := by
      intro he
      rw [he] at h
      simp at h
    obtain ⟨v, hv⟩ := Option.isSome_iff_exists.mp (List.getLast?_isSome.mpr hne)
    have hlen : l.dropLast.length = l.length - 1 := List.length_dropLast l
    have hn : n ≤ l.dropLast.length := by omega
    rw [shiftLoop, hv]
    show shiftLoop n l.dropLast = some (l.take (l.length - (n + 1)))
    rw [ih l.dropLast hn, hlen, List.dropLast_eq_take, List.take_take]
    congr 2
    omega

/-- The shift loop walks off the end of the list when the count exceeds the
depth: the Go code dereferences a nil `Back()`. -/
theorem shiftLoop_gt (n : Nat) :
    ∀ l : List ℚ, l.length < n → shiftLoop n l = none := by
  induction n with
  | zero => intro l h; omega
  | succ n ih =>
    intro l h
    rcases hl : l.getLast? with _ | v
    · rw [shiftLoop, hl]
    · have hne : l ≠ [] := by
        intro he
        rw [he] at hl
        simp at hl
      have hd : l.dropLast.length < n := by
        have h0 : l.dropLast.length = l.length - 1 := List.length_dropLast l
        have h1 : l.length ≠ 0 := by
          intro hz
          exact hne (List.length_eq_zero.mp hz)
        omega
      rw [shiftLoop, hl]
      show shiftLoop n l.dropLast = none
      exact ih l.dropLast hd

/-- The stack invariant holding at every state a session can reach (see the
preservation lemmas below): a revision counter still at 0 means no push or
pop has happened since the live list or the snapshot was (re)created, so
both lists are empty. -/
def StackInv (s : Stack) : Prop :=
  (s.rev = 0 → s.linklist = [] ∧ s.backup = []) ∧ (s.backuprev = 0 → s.backup = [])

instance : DecidablePred StackInv := fun s => by
  unfold StackInv
  infer_instance

theorem StackInv_NewStack : StackInv NewStack := by
  constructor <;> intro _ <;> simp [NewStack]

/-- `StackInv` is preserved by every stack operation, so it holds at every
state reachable in a session. -/
theorem StackInv_preserved (s : Stack) (x : ℚ) (n : Nat) (hinv : StackInv s) :
    StackInv (s.Push x) ∧ StackInv (s.Pop).2 ∧ StackInv s.Shift1 ∧
    StackInv s.Clear ∧ StackInv s.Swap ∧ StackInv s.Reverse ∧
    StackInv s.Backup ∧ StackInv (s.Restore).1 ∧
    (∀ t, s.Shift n = some t → StackInv t) := by
  obtain ⟨h1, h2⟩ := hinv
  refine ⟨⟨by simp [Stack.Push, Stack.Bump], by simpa [Stack.Push, Stack.Bump] using h2⟩,
    ?_, ?_, ?_, ?_, ?_, ?_, ?_, ?_⟩
  · unfold Stack.Pop
    rcases hl : s.linklist.getLast? with _ | v
    · exact ⟨h1, h2⟩
    · exact ⟨by simp [Stack.Bump], by simpa [Stack.Bump] using h2⟩
  · refine ⟨fun hr => ?_, fun hb => ?_⟩
    · rw [Shift1_rev] at hr
      have hl := (h1 hr).1
      have hs : s.Shift1 = s := by
        unfold Stack.Shift1
        rw [if_pos (by rw [hl]; rfl)]
      rw [hs, hl]
      exact ⟨rfl, (h1 hr).2⟩
    · rw [Shift1_backuprev] at hb
      rw [Shift1_backup]
      exact h2 hb
  · exact ⟨fun hr => ⟨rfl, (h1 hr).2⟩, h2⟩
  · refine ⟨fun hr => ?_, fun hb => ?_⟩
    · rw [Swap_rev] at hr
      have hl := (h1 hr).1
      have hs : s.Swap = s := by
        unfold Stack.Swap
        rw [if_pos (by rw [hl]; simp)]
      rw [hs, hl]
      exact ⟨rfl, (h1 hr).2⟩
    · rw [Swap_backuprev] at hb
      rw [Swap_backup]
      exact h2 hb
  · refine ⟨fun hr => ?_, fun hb => ?_⟩
    · rw [Reverse_rev] at hr
      have hl := (h1 hr).1
      refine ⟨?_, (h1 hr).2⟩
      show ((s.linklist.drop _).reverse ++ s.linklist.take _) = []
      rw [hl]
      rfl
    · rw [Reverse_backuprev] at hb
      rw [Reverse_backup]
      exact h2 hb
  · exact ⟨fun hr => ⟨(h1 hr).1, (h1 hr).1⟩, fun hr => (h1 hr).1⟩
  · by_cases hr : s.rev = 0
    · have hres : (s.Restore).1 = s := by
        unfold Stack.Restore
        rw [if_pos hr]
      rw [hres]
      exact ⟨h1, h2⟩
    · have hres : (s.Restore).1 = { s with rev := s.backuprev, linklist := s.backup } := by
        unfold Stack.Restore
        rw [if_neg hr]
      rw [hres]
      exact ⟨fun hb => ⟨h2 hb, h2 hb⟩, fun hb => h2 hb⟩
  · intro t ht
    unfold Stack.Shift at ht
    by_cases he : s.linklist.isEmpty
    · rw [if_pos he] at ht
      cases ht
      exact ⟨h1, h2⟩
    · rw [if_neg he] at ht
      rcases hsl : shiftLoop n s.linklist with _ | l2
      · rw [hsl] at ht
        simp at ht
      · rw [hsl] at ht
        simp at ht
        have hne : s.linklist ≠ [] := by simpa [List.isEmpty_iff] using he
        rw [← ht]
        exact ⟨fun hr => absurd ((h1 hr).1) hne, fun hb => h2 hb⟩

/-- Evaluating `ts1 ++ ts2` from `c` first runs `ts1`; when that prefix
succeeds, its final state threads into `ts2`. -/
theorem EvalTokens_append (ts1 : List String) :
    ∀ (c c1 : Calc) (ts2 : List String), c.EvalTokens ts1 = FRes.ok c1 →
      c.EvalTokens (ts1 ++ ts2) = c1.EvalTokens ts2 := by
  induction ts1 with
  | nil =>
    intro c c1 ts2 h
    cases h
    rfl
  | cons item rest ih =>
    intro c c1 ts2 h
    simp only [List.cons_append, Calc.EvalTokens] at h ⊢
    rcases he : c.EvalItem item with c2 | ⟨c2, m⟩ | _
    · rw [he] at h
      exact ih c2 c1 ts2 h
    · rw [he] at h
      exact FRes.noConfusion h
    · rw [he] at h
      exact FRes.noConfusion h

/-- On a stack of depth at least 2, `Last 2` is the two top elements in
bottom-to-top order, the topmost being `getLast?`. -/
theorem Stack.Last_two (s : Stack) (h : 2 ≤ s.Len) :
    ∃ a b, s.Last 2 = [a, b] ∧ s.linklist.getLast? = some b := by
  unfold Stack.Len at h
  have hlen2 : (s.linklist.drop (s.linklist.length - 2)).length = 2 := by
    rw [List.length_drop]
    omega
  rcases hdrop : s.linklist.drop (s.linklist.length - 2) with _ | ⟨a, tl⟩
  · rw [hdrop] at hlen2
    simp at hlen2
  · rcases tl with _ | ⟨b, tl2⟩
    · rw [hdrop] at hlen2
      simp at hlen2
    · rcases tl2 with _ | ⟨z, tl3⟩
      · refine ⟨a, b, hdrop, ?_⟩
        rw [List.getLast?_eq_getElem?]
        have hg : s.linklist[s.linklist.length - 1]? =
            (s.linklist.drop (s.linklist.length - 2))[1]? := by
          rw [List.getElem?_drop]
          congr 1
          omega
        rw [hg, hdrop]
        rfl
      · rw [hdrop] at hlen2
        simp at hlen2

/-- On a non-empty stack, `Last 1` is the singleton holding the top
element. -/
theorem Stack.Last_one (s : Stack) (h : s.linklist ≠ []) :
    ∃ t, s.Last 1 = [t] ∧ s.linklist.getLast? = some t := by
  have hlen1 : (s.linklist.drop (s.linklist.length - 1)).length = 1 := by
    rw [List.length_drop]
    have : s.linklist.length ≠ 0 := by simpa [List.length_eq_zero] using h
    omega
  rcases hdrop : s.linklist.drop (s.linklist.length - 1) with _ | ⟨t, tl⟩
  · rw [hdrop] at hlen1
    simp at hlen1
  · rcases tl with _ | ⟨z, tl2⟩
    · refine ⟨t, hdrop, ?_⟩
      rw [List.getLast?_eq_getElem?]
      have hg : s.linklist[s.linklist.length - 1]? =
          (s.linklist.drop (s.linklist.length - 1))[0]? := by
        rw [List.getElem?_drop]
        congr 1
      rw [hg, hdrop]
      rfl
    · rw [hdrop] at hlen1
      simp at hlen1

/-! ## The claims -/

/-- C1: evaluating a division token whose divisor (the top element of a
stack of depth ≥ 2) is zero reports the domain error "division by null"
and returns the Calc state exactly as it was — no operand removed, no
backup taken, no result pushed; concretely, evaluating the line `"5 0 /"`
ends in that error with the stack still `[5, 0]`. -/
theorem div_by_zero_leaves_stack (c : Calc) (hb : c.batch = false)
    (hlen : 2 ≤ c.stack.Len) (htop : c.stack.linklist.getLast? = some 0) :
    c.DoFuncall "/" = FRes.err c "division by null" ∧
    NewCalc.Eval "5 0 /" =
      FRes.err
        { batch := false, stack := { linklist := [5, 0], backup := [5], rev := 2, backuprev := 1 },
          Vars := [], output := [] }
        (Error "division by null") := by
  constructor
  · obtain ⟨a, b, hl2, hlast⟩ := Stack.Last_two c.stack hlen
    have hb0 : b = 0 := by
      rw [hlast] at htop
      injection htop
    subst hb0
    have hnot : ¬((c.stack.Len : Int) < 2) := by
      rw [not_lt]
      exact_mod_cast hlen
    unfold Calc.DoFuncall
    rw [hb]
    simp only [Bool.false_eq_true, if_false, NewFuncall]
    rw [show DefineFunctions "/" = some (NewFuncall (arg2 fun a b =>
      if b = 0 then NewR 0 (some "division by null") else NewR (a / b) none) 2) from rfl]
    simp only [NewFuncall]
    rw [if_neg (by decide)]
    rw [if_neg hnot]
    rw [show ((2 : Int)).toNat = 2 from rfl]
    rw [hl2]
    simp [arg2, NewR]
  · decide

theorem div_by_zero_leaves_stack_w :
    ({ batch := false, stack := { linklist := [5, 0], backup := [5], rev := 2, backuprev := 1 },
       Vars := [], output := [] } : Calc).DoFuncall "/" =
      FRes.err
        { batch := false, stack := { linklist := [5, 0], backup := [5], rev := 2, backuprev := 1 },
          Vars := [], output := [] }
        "division by null" :=
  (div_by_zero_leaves_stack
    { batch := false, stack := { linklist := [5, 0], backup := [5], rev := 2, backuprev := 1 },
      Vars := [], output := [] }
    rfl (by decide) (by decide)).1

/-- C2: in batch mode, on a non-empty stack of n elements the `median`
function call succeeds and pushes the element at 0-based index n/2 of the
stack read bottom-to-top (no sorting), after clearing the consumed stack;
concretely, the line `"1 2 3 4 5 median"` in batch mode leaves `[3]`. -/
theorem median_uses_stack_order (c : Calc) (hb : c.batch = true)
    (hne : c.stack.linklist ≠ []) :
    (∃ m, c.stack.linklist.get? (c.stack.linklist.length / 2) = some m ∧
      c.DoFuncall "median" = FRes.ok { c with stack := ((c.stack.Backup).Clear).Push m }) ∧
    ({ NewCalc with batch := true } : Calc).Eval "1 2 3 4 5 median" =
      FRes.ok
        { batch := true, stack := { linklist := [3], backup := [1, 2, 3, 4, 5], rev := 6, backuprev := 5 },
          Vars := [], output := [] } := by
  constructor
  · have hlt : c.stack.linklist.length / 2 < c.stack.linklist.length := by
      have : c.stack.linklist.length ≠ 0 := by simpa [List.length_eq_zero] using hne
      omega
    refine ⟨c.stack.linklist.get ⟨c.stack.linklist.length / 2, hlt⟩, List.get?_eq_get hlt, ?_⟩
    unfold Calc.DoFuncall
    rw [hb]
    simp only [if_true]
    rw [show DefineBatchFunctions "median" = some (NewFuncall (fun args =>
      (args.get? (args.length / 2)).map fun v => NewR v none) (-1)) from rfl]
    simp only [NewFuncall, if_true]
    simp only [Stack.All, List.get?_eq_get hlt, Option.map_some', NewR]
  · decide

theorem median_uses_stack_order_w :
    ({ NewCalc with batch := true } : Calc).Eval "1 2 3 4 5 median" =
      FRes.ok
        { batch := true, stack := { linklist := [3], backup := [1, 2, 3, 4, 5], rev := 6, backuprev := 5 },
          Vars := [], output := [] } :=
  (median_uses_stack_order
    { batch := true, stack := { linklist := [1, 2, 3, 4, 5], backup := [1, 2, 3, 4], rev := 5, backuprev := 4 },
      Vars := [], output := [] }
    rfl (by decide)).2

theorem Pop_empty (s : Stack) (h : s.linklist = []) : s.Pop = (0, s) := by
  unfold Stack.Pop
  rw [h]
  rfl

theorem Pop_nonempty (s : Stack) (v : ℚ) (h : s.linklist.getLast? = some v) :
    s.Pop = (v, { s.Bump with linklist := s.linklist.dropLast }) := by
  unfold Stack.Pop
  rw [h]

theorem Restore_zero (s : Stack) (h : s.rev = 0) : s.Restore = (s, true) := by
  unfold Stack.Restore
  rw [if_pos h]

theorem Restore_pos (s : Stack) (h : s.rev ≠ 0) :
    s.Restore = ({ s with rev := s.backuprev, linklist := s.backup }, false) := by
  unfold Stack.Restore
  rw [if_neg h]

theorem Reverse_linklist_nil (s : Stack) (h : s.linklist = []) : (s.Reverse).linklist = [] := by
  show (s.linklist.drop _).reverse ++ s.linklist.take _ = []
  rw [h]
  simp

/-- The single mutating stack operations named by the backup/undo contract:
push, pop, shift (count 1, as issued by the `shift` command), clear, swap,
reverse. -/
inductive Mutation where
  | push (x : ℚ)
  | pop
  | shift
  | clear
  | swap
  | reverse

/-- Apply a mutation to a stack (`pop` discards the returned value; `shift`
is the never-panicking count-1 form, see `Shift_one`). -/
def Mutation.apply : Mutation → Stack → Stack
  | .push x, s => s.Push x
  | .pop, s => (s.Pop).2
  | .shift, s => s.Shift1
  | .clear, s => s.Clear
  | .swap, s => s.Swap
  | .reverse, s => s.Reverse

/-- C3: for every session stack state (characterised by `StackInv`, which
holds at every reachable state by `StackInv_NewStack` and
`StackInv_preserved`) and every single mutating operation m among push,
pop, shift, clear, swap and reverse, the sequence backup(); m; restore()
leaves the live sequence with exactly the elements, in the same order, it
had immediately before m. -/
theorem backup_mutation_restore (s : Stack) (m : Mutation) (hinv : StackInv s) :
    ((m.apply s.Backup).Restore).1.linklist = s.linklist := by
  obtain ⟨h1, _h2⟩ := hinv
  cases m with
  | push x =>
    rw [Mutation.apply]
    rw [Restore_pos _ (by simp [Stack.Push, Stack.Bump, Stack.Backup])]
    rfl
  | pop =>
    rw [Mutation.apply]
    rcases hl : s.linklist.getLast? with _ | v
    · rw [Pop_empty s.Backup (by exact List.getLast?_eq_none_iff.mp hl)]
      by_cases hr : s.rev = 0
      · rw [Restore_zero _ (by exact hr)]
        rfl
      · rw [Restore_pos _ (by exact hr)]
        rfl
    · rw [Pop_nonempty s.Backup v (by exact hl)]
      rw [Restore_pos _ (by simp [Stack.Bump, Stack.Backup])]
      rfl
  | shift =>
    rw [Mutation.apply]
    by_cases hr : s.rev = 0
    · have hemp := (h1 hr).1
      rw [Restore_zero _ (by rw [Shift1_rev]; exact hr)]
      have hs : s.Backup.Shift1 = s.Backup := by
        unfold Stack.Shift1
        rw [if_pos (by simp [Stack.Backup, hemp])]
      rw [hs]
      rfl
    · rw [Restore_pos _ (by rw [Shift1_rev]; exact hr)]
      show (s.Backup.Shift1).backup = s.linklist
      rw [Shift1_backup]
      rfl
  | clear =>
    rw [Mutation.apply]
    by_cases hr : s.rev = 0
    · rw [Restore_zero _ (by exact hr)]
      exact ((h1 hr).1).symm
    · rw [Restore_pos _ (by exact hr)]
      rfl
  | swap =>
    rw [Mutation.apply]
    by_cases hr : s.rev = 0
    · have hemp := (h1 hr).1
      rw [Restore_zero _ (by rw [Swap_rev]; exact hr)]
      have hs : s.Backup.Swap = s.Backup := by
        unfold Stack.Swap
        rw [if_pos (by simp [Stack.Backup, hemp])]
      rw [hs]
      rfl
    · rw [Restore_pos _ (by rw [Swap_rev]; exact hr)]
      show (s.Backup.Swap).backup = s.linklist
      rw [Swap_backup]
      rfl
  | reverse =>
    rw [Mutation.apply]
    by_cases hr : s.rev = 0
    · have hemp := (h1 hr).1
      rw [Restore_zero _ (by rw [Reverse_rev]; exact hr)]
      rw [show ((s.Backup.Reverse, true).1.linklist) = (s.Backup.Reverse).linklist from rfl]
      rw [Reverse_linklist_nil s.Backup (by exact hemp)]
      exact hemp.symm
    · rw [Restore_pos _ (by rw [Reverse_rev]; exact hr)]
      show (s.Backup.Reverse).backup = s.linklist
      rw [Reverse_backup]
      rfl

theorem backup_mutation_restore_w :
    ((Mutation.clear.apply (NewStack.Push 5).Backup).Restore).1.linklist =
      (NewStack.Push 5).linklist :=
  backup_mutation_restore (NewStack.Push 5) Mutation.clear (by decide)

/-- C4 counterexample: on a stack freshly created and pushed once — so
backup() has never been called in the session — restore() does NOT report
an error and does NOT leave the live sequence unchanged: it silently
replaces `[5]` with the initial empty snapshot. -/
theorem restore_without_backup_cex :
    ((NewStack.Push 5).Restore).2 = false ∧
    ((NewStack.Push 5).Restore).1.linklist ≠ (NewStack.Push 5).linklist := by
  decide

/-- C4 amended: restore() reports an error and leaves the stack untouched
exactly when the revision counter is 0 (its initial value — no push or pop
bump since creation or since a restore back to revision 0), not when no
backup was ever taken; whenever rev ≠ 0, restore() silently installs the
snapshot, which is the initial empty list if backup() was never called. -/
theorem restore_rev_guard (s : Stack) :
    (s.rev = 0 → s.Restore = (s, true)) ∧
    (s.rev ≠ 0 → s.Restore = ({ s with rev := s.backuprev, linklist := s.backup }, false)) :=
  ⟨fun h => Restore_zero s h, fun h => Restore_pos s h⟩

theorem restore_rev_guard_w : NewStack.Restore = (NewStack, true) :=
  (restore_rev_guard NewStack).1 rfl

/-- C5 counterexample: evaluating the line "2 foo 3" stops at the unknown
token "foo": the error is returned to the line's caller and the trailing
token "3" is never evaluated — the final stack is [2], not the [2, 3] that
per-token continuation would produce. -/
theorem unknown_token_aborts_cex :
    NewCalc.Eval "2 foo 3" =
      FRes.err
        { batch := false, stack := { linklist := [2], backup := [], rev := 1, backuprev := 0 },
          Vars := [], output := [] }
        (Error "unknown command or operator") ∧
    ([2] : List ℚ) ≠ [2, 3] := by
  decide

/-- C5 amended: a token on which EvalItem fails (an unknown command or
operator among them) reports an error for that token, but Eval's loop
returns immediately: the remaining tokens of the same line are not
evaluated, and the error propagates to the caller (the REPL prints it and
continues with the next line, so the process survives). -/
theorem token_error_aborts_line (c c1 c2 : Calc) (m : String)
    (ts1 ts2 : List String) (t : String)
    (h1 : c.EvalTokens ts1 = FRes.ok c1)
    (h2 : c1.EvalItem t = FRes.err c2 m) :
    c.EvalTokens (ts1 ++ t :: ts2) = FRes.err c2 m := by
  rw [EvalTokens_append ts1 c c1 (t :: ts2) h1]
  simp only [Calc.EvalTokens]
  rw [h2]

theorem token_error_aborts_line_w :
    NewCalc.EvalTokens (["2"] ++ "foo" :: ["3"]) =
      FRes.err
        { batch := false, stack := { linklist := [2], backup := [], rev := 1, backuprev := 0 },
          Vars := [], output := [] }
        (Error "unknown command or operator") :=
  token_error_aborts_line NewCalc
    { batch := false, stack := { linklist := [2], backup := [], rev := 1, backuprev := 0 },
      Vars := [], output := [] }
    { batch := false, stack := { linklist := [2], backup := [], rev := 1, backuprev := 0 },
      Vars := [], output := [] }
    (Error "unknown command or operator") ["2"] ["3"] "foo" (by decide) (by decide)

/-- C6 counterexample: with batch mode on and an empty stack, `median` is
dispatched with no depth check — its transformation is invoked on the
empty argument list and indexes `args[0]`, a runtime panic that crashes
the process instead of a reported, non-fatal arity failure. -/
theorem batch_median_empty_panics_cex :
    ({ NewCalc with batch := true } : Calc).DoFuncall "median" = FRes.panicked ∧
    ({ NewCalc with batch := true } : Calc).Eval "median" = FRes.panicked := by
  decide

/-- C6 amended: for fixed-arity registry entries (Expectargs ≠ -1) the
evaluator does enforce the arity invariant — a stack shallower than the
declared arity yields the reported, non-fatal "stack doesn't provide
enough arguments" error with the state untouched and the transformation
never invoked; batch entries (-1) receive the whole stack unchecked, so on
an empty stack median/min/max panic (see the counterexample). -/
theorem fixed_arity_checked (c : Calc) (name : String) (fn : Funcall)
    (hlook : (if c.batch then DefineBatchFunctions name else DefineFunctions name) = some fn)
    (hfix : fn.Expectargs ≠ -1)
    (hshallow : (c.stack.Len : Int) < fn.Expectargs) :
    c.DoFuncall name = FRes.err c "stack doesn't provide enough arguments" := by
  unfold Calc.DoFuncall
  simp only [hlook]
  rw [if_neg hfix, if_pos hshallow]

theorem fixed_arity_checked_w :
    NewCalc.DoFuncall "+" = FRes.err NewCalc "stack doesn't provide enough arguments" :=
  fixed_arity_checked NewCalc "+" (NewFuncall (arg2 fun a b => NewR (a + b) none) 2)
    rfl (by decide) (by decide)

/-- C7 counterexample: shift(2) on a stack of depth 1 walks the removal
loop past the end of the list and dereferences a nil `Back()` — a runtime
panic (`none`), not a no-op leaving an empty stack. -/
theorem shift_beyond_depth_cex :
    Stack.Shift { linklist := [5], backup := [], rev := 1, backuprev := 0 } 2 = none := by
  decide

/-- C7 amended: shift(n) is a no-op on an empty stack and removes exactly
the top n elements when n ≤ depth; but when 0 < depth < n it panics
(nil-pointer dereference in the removal loop) instead of removing only the
elements that exist. -/
theorem shift_within_depth (s : Stack) (n : Nat) :
    (s.linklist = [] → s.Shift n = some s) ∧
    (n ≤ s.linklist.length →
      s.Shift n = some { s with linklist := s.linklist.take (s.linklist.length - n) }) ∧
    (s.linklist ≠ [] → s.linklist.length < n → s.Shift n = none) := by
  refine ⟨fun he => ?_, fun hle => ?_, fun hne hgt => ?_⟩
  · unfold Stack.Shift
    rw [if_pos (by rw [he]; rfl)]
  · unfold Stack.Shift
    by_cases he : s.linklist.isEmpty
    · have hnil : s.linklist = [] := List.isEmpty_iff.mp he
      rw [if_pos he]
      have htake : s.linklist.take (s.linklist.length - n) = s.linklist := by
        rw [hnil]
        simp
      rw [htake]
    · rw [if_neg he, shiftLoop_le n _ hle]
      rfl
  · unfold Stack.Shift
    rw [if_neg (by simpa [List.isEmpty_iff] using hne), shiftLoop_gt n _ hgt]
    rfl

theorem shift_within_depth_w :
    Stack.Shift { linklist := [5, 7], backup := [], rev := 2, backuprev := 0 } 2 =
      some { linklist := List.take 0 [5, 7], backup := [], rev := 2, backuprev := 0 } :=
  (shift_within_depth { linklist := [5, 7], backup := [], rev := 2, backuprev := 0 } 2).2.1
    (by decide)

/-- C8 counterexample: `Clear` on the stack `[5]` changes the sequence but
leaves the revision counter unchanged — the revision is not incremented on
every structural mutation. -/
theorem clear_does_not_bump_rev_cex :
    ((NewStack.Push 5).Clear).linklist ≠ (NewStack.Push 5).linklist ∧
    ((NewStack.Push 5).Clear).rev = (NewStack.Push 5).rev := by
  decide

/-- C8 amended: only Push and Pop (the latter only on a non-empty stack)
increment the revision counter; Shift, Clear, Swap and Reverse leave it
unchanged even when they change the sequence. -/
theorem rev_bumped_only_by_push_pop (s : Stack) (x : ℚ) :
    (s.Push x).rev = s.rev + 1 ∧
    (s.linklist ≠ [] → (s.Pop).2.rev = s.rev + 1) ∧
    (s.linklist = [] → (s.Pop).2 = s) ∧
    (s.Shift1).rev = s.rev ∧ (s.Clear).rev = s.rev ∧ (s.Swap).rev = s.rev ∧
    (s.Reverse).rev = s.rev := by
  refine ⟨rfl, fun hne => ?_, fun he => ?_, Shift1_rev s, rfl, Swap_rev s, rfl⟩
  · obtain ⟨v, hv⟩ := Option.isSome_iff_exists.mp (List.getLast?_isSome.mpr hne)
    rw [Pop_nonempty s v hv]
    rfl
  · rw [Pop_empty s he]

theorem rev_bumped_only_by_push_pop_w :
    ((NewStack.Push 5).Pop).2.rev = (NewStack.Push 5).rev + 1 :=
  (rev_bumped_only_by_push_pop (NewStack.Push 5) 0).2.1 (by decide)

unseal Rat.mul Rat.add Rat.sub Rat.inv in
/-- C9: on a non-empty stack, `>NAME` binds NAME to the top-of-stack value
read without popping (only the Vars map changes); `<NAME` pushes the bound
value when NAME is bound and prints "variable doesn't exist" otherwise
(stack unchanged); bindings live outside the stack and survive `clear`, so
the line "10 >TEN clear 5 <TEN *" ends with stack [50]. -/
theorem register_roundtrip (c : Calc) (name : String) (v : ℚ) :
    (c.stack.linklist ≠ [] →
      ∃ t, c.stack.linklist.getLast? = some t ∧
        c.PutVar name = { c with Vars := (name, t) :: c.Vars }) ∧
    (c.Vars.lookup name = some v →
      c.GetVar name = { c with stack := (c.stack.Backup).Push v }) ∧
    (c.Vars.lookup name = none →
      c.GetVar name = { c with output := c.output ++ ["variable doesn't exist"] }) ∧
    NewCalc.Eval "10 >TEN clear 5 <TEN *" =
      FRes.ok
        { batch := false, stack := { linklist := [50], backup := [5, 10], rev := 4, backuprev := 3 },
          Vars := [("TEN", 10)], output := [] } := by
  refine ⟨fun hne => ?_, fun hsome => ?_, fun hnone => ?_, by decide⟩
  · obtain ⟨t, hl1, hlast⟩ := Stack.Last_one c.stack hne
    refine ⟨t, hlast, ?_⟩
    unfold Calc.PutVar
    rw [hl1]
  · unfold Calc.GetVar
    rw [hsome]
  · unfold Calc.GetVar
    rw [hnone]

theorem register_roundtrip_w :
    ({ batch := false, stack := { linklist := [], backup := [], rev := 0, backuprev := 0 },
       Vars := [("TEN", 10)], output := [] } : Calc).GetVar "TEN" =
      { batch := false,
        stack := Stack.Push
          (Stack.Backup { linklist := [], backup := [], rev := 0, backuprev := 0 }) 10,
        Vars := [("TEN", 10)], output := [] } :=
  (register_roundtrip
    { batch := false, stack := { linklist := [], backup := [], rev := 0, backuprev := 0 },
      Vars := [("TEN", 10)], output := [] } "TEN" 10).2.1 (by decide)

/-- C10: in batch mode, DoFuncall selects the batch table, so any name
absent from it — `sqrt` and `mod` among the normal-table keys — is not
invoked with its fixed-arity transformation: the call fails with
"function not defined but in completion list", state untouched, and
EvalItem (which reached DoFuncall through the normal-table branch) returns
that error wrapped once more by `Error`. -/
theorem batch_mode_table_selection (c : Calc) (name : String)
    (hb : c.batch = true) (hbn : DefineBatchFunctions name = none) :
    c.DoFuncall name = FRes.err c (Error "function not defined but in completion list") ∧
    c.EvalItem "sqrt" = FRes.err c (Error (Error "function not defined but in completion list")) ∧
    c.EvalItem "mod" = FRes.err c (Error (Error "function not defined but in completion list")) := by
  have hdo : ∀ nm, DefineBatchFunctions nm = none →
      c.DoFuncall nm = FRes.err c (Error "function not defined but in completion list") := by
    intro nm hn
    unfold Calc.DoFuncall
    rw [hb]
    simp only [if_true, hn]
  refine ⟨hdo name hbn, ?_, ?_⟩
  · unfold Calc.EvalItem
    rw [show parseFloat "sqrt" = none from rfl,
        show parseTime "sqrt" = none from rfl,
        show parseHex "sqrt" = none from rfl,
        if_neg (by decide), if_pos (by decide),
        hdo "sqrt" rfl]
  · unfold Calc.EvalItem
    rw [show parseFloat "mod" = none from rfl,
        show parseTime "mod" = none from rfl,
        show parseHex "mod" = none from rfl,
        if_neg (by decide), if_pos (by decide),
        hdo "mod" rfl]

theorem batch_mode_table_selection_w :
    ({ NewCalc with batch := true } : Calc).DoFuncall "sqrt" =
      FRes.err { NewCalc with batch := true }
        (Error "function not defined but in completion list") :=
  (batch_mode_table_selection { NewCalc with batch := true } "sqrt" rfl rfl).1
